import Mathlib

/-!
Verification of the worker-lifecycle and rank-coordination protocol of
`ray_lightning/ray_ddp.py` (class `RayPlugin` and the module-level helpers).

The Python module is shallowly embedded: dictionaries become functions,
mutable objects become explicit state records, and every operation that can
raise (list indexing, dict key lookup, `ray.get` on a failing future,
unpacking `None`) returns an `Option`, where `none` models a raised
exception propagating out of the modelled function.
-/

namespace RayDDP

/-! ### RankResolver: `RayPlugin.get_local_ranks`

`get_local_ranks` receives (via `ray.get` on `get_node_ip` futures) the list
`node_ips` of the node identity of each worker, indexed by global rank; by
construction `len(node_ips) == self.num_workers`, so the embedding takes the
list alone and uses its length for `num_workers`. -/

/-- The dict `node_ip_map` built by the first loop of `get_local_ranks`:
`for i in range(len(node_ips)): node_ip_map[node_ips[i]] = i`.
Repeated identities overwrite, so the stored index is the last occurrence. -/
def node_ip_map (node_ips : List String) : String → Option Nat :=
  (List.range node_ips.length).foldl
    (fun m i => fun x => if x = node_ips.getD i "" then some i else m x)
    (fun _ => none)

/-- One iteration of the second loop of `get_local_ranks`.  The state is the
pair of the `defaultdict(int)` `rank_counter_dict` (a total function with
default `0`) and the `global_to_local` entries produced so far (the Python
code pre-allocates the list and assigns index `g` at iteration `g`, which is
the same as appending in order).  `node_ips[global_rank]` and
`node_ip_map[ip]` are fallible lookups (IndexError / KeyError). -/
def glr_step (node_ips : List String) (nmap : String → Option Nat)
    (st : (String → Nat) × List (Nat × Nat)) (g : Nat) :
    Option ((String → Nat) × List (Nat × Nat)) := do
  let ip ← node_ips.get? g
  let nr ← nmap ip
  pure ((fun x => if x = ip then st.1 x + 1 else st.1 x),
        st.2 ++ [(st.1 ip, nr)])

/-- `RayPlugin.get_local_ranks`: maps each global rank to its
`(local_rank, node_rank)` pair.  `none` models an exception escaping the
function (which in fact never happens, see `get_local_ranks_total`). -/
def get_local_ranks (node_ips : List String) : Option (List (Nat × Nat)) :=
  ((List.range node_ips.length).foldlM
    (glr_step node_ips (node_ip_map node_ips)) ((fun _ => 0), [])).map Prod.snd

example : get_local_ranks ["A", "B", "A", "A", "B"] =
    some [(0, 3), (0, 4), (1, 3), (2, 3), (1, 4)] := by decide

example : get_local_ranks [] = some [] := by decide

/-! ### Characterisation of `get_local_ranks` -/

/-- Index of the last occurrence of `x` among the first `n` entries of `ids`
(the value stored in `node_ip_map` after its overwriting loop). -/
def last_occ (ids : List String) : Nat → String → Option Nat
  | 0, _ => none
  | g + 1, x => if x = ids.getD g "" then some g else last_occ ids g x

theorem node_ip_map_eq (ids : List String) :
    node_ip_map ids = fun x => last_occ ids ids.length x := by
  suffices h : ∀ n, (List.range n).foldl
      (fun m i => fun x => if x = ids.getD i "" then some i else m x)
      (fun _ => none) = fun x => last_occ ids n x from h ids.length
  intro n
  induction n with
  | zero => rfl
  | succ n ih =>
    rw [List.range_succ, List.foldl_append, ih]
    rfl

theorem last_occ_isSome (ids : List String) {n g : Nat} (h : g < n) :
    (last_occ ids n (ids.getD g "")).isSome = true := by
  induction n with
  | zero => exact absurd h (Nat.not_lt_zero g)
  | succ n ih =>
    show (if ids.getD g "" = ids.getD n "" then some n
          else last_occ ids n (ids.getD g "")).isSome = true
    by_cases hx : ids.getD g "" = ids.getD n ""
    · rw [if_pos hx]
      rfl
    · rw [if_neg hx]
      have hg : g < n := by
        rcases Nat.lt_succ_iff_lt_or_eq.mp h with h' | h'
        · exact h'
        · exact absurd (h' ▸ rfl) hx
      exact ih hg

theorem get?_eq_some_getD {l : List String} {n : Nat} (h : n < l.length) :
    l.get? n = some (l.getD n "") := by
  rw [List.get?_eq_getElem?, List.getD_eq_getElem?_getD, List.getElem?_eq_getElem h]
  rfl

theorem take_succ_getD {l : List String} {n : Nat} (h : n < l.length) :
    l.take (n + 1) = l.take n ++ [l.getD n ""] := by
  rw [List.take_succ, ← List.get?_eq_getElem?, get?_eq_some_getD h]
  rfl

/-- The `(local_rank, node_rank)` pair that `get_local_ranks` computes for
global rank `g`: the number of earlier workers on the same node, and the
`node_ip_map` entry for that node. -/
def local_node_pair (ids : List String) (g : Nat) : Nat × Nat :=
  ((ids.take g).count (ids.getD g ""), (node_ip_map ids (ids.getD g "")).getD 0)

theorem glr_foldlM_eq (ids : List String) :
    ∀ n, n ≤ ids.length →
    (List.range n).foldlM (glr_step ids (node_ip_map ids)) ((fun _ => 0), []) =
      some ((fun x => (ids.take n).count x),
            (List.range n).map (local_node_pair ids)) := by
  intro n
  induction n with
  | zero =>
    intro _
    have hc : (fun x : String => (ids.take 0).count x) = fun _ => 0 := by
      funext x
      rfl
    rw [hc]
    rfl
  | succ n ih =>
    intro h
    have hn : n < ids.length := Nat.lt_of_succ_le h
    rw [List.range_succ, List.foldlM_append, ih (Nat.le_of_lt hn)]
    have hget : ids.get? n = some (ids.getD n "") := get?_eq_some_getD hn
    have hmap : (node_ip_map ids (ids.getD n "")).isSome = true := by
      rw [node_ip_map_eq]
      exact last_occ_isSome ids hn
    obtain ⟨k, hk⟩ := Option.isSome_iff_exists.mp hmap
    have hcounter : (fun x => if x = ids.getD n "" then (ids.take n).count x + 1
        else (ids.take n).count x) = fun x => (ids.take (n + 1)).count x := by
      funext x
      rw [take_succ_getD hn, List.count_append]
      by_cases hx : x = ids.getD n ""
      · rw [if_pos hx, hx, List.count_singleton_self]
      · rw [if_neg hx]
        have hbx : (ids.getD n "" == x) = false := by
          rw [beq_eq_false_iff_ne]
          exact fun he => hx he.symm
        rw [List.count_singleton, hbx]
        rfl
    have hstep : glr_step ids (node_ip_map ids)
        ((fun x => (ids.take n).count x), (List.range n).map (local_node_pair ids)) n =
        some ((fun x => (ids.take (n + 1)).count x),
              (List.range n).map (local_node_pair ids) ++ [local_node_pair ids n]) := by
      simp only [glr_step, hget, hk, Option.bind_eq_bind, Option.some_bind]
      have hpair : local_node_pair ids n = ((ids.take n).count (ids.getD n ""), k) := by
        unfold local_node_pair
        rw [hk]
        rfl
      rw [hpair, ← hcounter]
      rfl
    simp only [List.foldlM_cons, List.foldlM_nil, Option.bind_eq_bind, Option.some_bind,
      hstep, List.map_append]
    rfl

theorem get_local_ranks_eq (ids : List String) :
    get_local_ranks ids = some ((List.range ids.length).map (local_node_pair ids)) := by
  unfold get_local_ranks
  rw [glr_foldlM_eq ids ids.length (Nat.le_refl _)]
  rfl

/-- Mapping each position of `x` in `ids` (in increasing order) to the number
of earlier occurrences of `x` enumerates `0, 1, ..., count x - 1`. -/
theorem filter_range_take_count (x : String) :
    ∀ ids : List String,
    ((List.range ids.length).filter (fun g => ids.getD g "" == x)).map
      (fun g => (ids.take g).count x) = List.range (ids.count x) := by
  intro ids
  induction ids with
  | nil => rfl
  | cons a t ih =>
    have hfm : (List.map Nat.succ (List.range t.length)).filter
        (fun g => (a :: t).getD g "" == x) =
        List.map Nat.succ ((List.range t.length).filter (fun g => t.getD g "" == x)) := by
      rw [List.filter_map]
      rfl
    rw [List.length_cons, List.range_succ_eq_map, List.filter_cons]
    by_cases hax : (a == x) = true
    · have hzero : ((a :: t).getD 0 "" == x) = true := hax
      have hcnt : List.count x (a :: t) = List.count x t + 1 := by
        rw [List.count_cons, hax]
        simp
      rw [if_pos hzero, List.map_cons, hfm, List.map_map, hcnt,
        List.range_succ_eq_map, ← ih, List.map_map]
      congr 1
      apply List.map_congr_left
      intro g _
      show ((a :: t).take (g + 1)).count x = Nat.succ ((t.take g).count x)
      rw [List.take_succ_cons, List.count_cons, hax]
      simp
    · have hax' : (a == x) = false := Bool.eq_false_iff.mpr hax
      have hzero : ((a :: t).getD 0 "" == x) = false := hax'
      have hcnt : List.count x (a :: t) = List.count x t := by
        rw [List.count_cons, hax']
        simp
      rw [if_neg (by rw [hzero]; exact Bool.false_ne_true), hfm, List.map_map, hcnt,
        ← ih]
      apply List.map_congr_left
      intro g _
      show ((a :: t).take (g + 1)).count x = (t.take g).count x
      rw [List.take_succ_cons, List.count_cons, hax']
      simp

/-- C5: for every non-empty sequence of worker node identities, the local
ranks that `get_local_ranks` assigns to the workers of any one node identity,
taken in order of increasing global rank, are exactly `0, 1, 2, ...` — dense
and zero-based per node identity; in particular the identities
`[A, B, A, A, B]` receive local ranks `[0, 0, 1, 2, 1]`. -/
theorem local_ranks_dense_per_node :
    (∀ ids : List String, ids ≠ [] → ∀ x : String,
      ∃ l, get_local_ranks ids = some l ∧
        ((List.range ids.length).filter (fun g => ids.getD g "" == x)).map
          (fun g => (l.getD g (0, 0)).1) = List.range (ids.count x)) ∧
    (get_local_ranks ["A", "B", "A", "A", "B"]).map (fun l => l.map Prod.fst) =
      some [0, 0, 1, 2, 1] := by
  constructor
  · intro ids _ x
    refine ⟨_, get_local_ranks_eq ids, ?_⟩
    rw [← filter_range_take_count x ids]
    apply List.map_congr_left
    intro g hg
    have hmem := List.mem_filter.mp hg
    have hlt : g < ids.length := List.mem_range.mp hmem.1
    have hx : ids.getD g "" = x := by
      have := hmem.2
      exact beq_iff_eq.mp (by exact this)
    have hget : ((List.range ids.length).map (local_node_pair ids)).getD g (0, 0) =
        local_node_pair ids g := by
      rw [List.getD_eq_getElem?_getD, List.getElem?_map, List.getElem?_range hlt]
      rfl
    rw [hget]
    show (ids.take g).count (ids.getD g "") = (ids.take g).count x
    rw [hx]
  · decide

/-- Witness for `local_ranks_dense_per_node` at the concrete identities
`[A, B, A, A, B]` and node identity `A`. -/
theorem local_ranks_dense_per_node_witness :
    ((["A", "B", "A", "A", "B"] : List String) ≠ []) ∧
    (∃ l, get_local_ranks ["A", "B", "A", "A", "B"] = some l ∧
      ((List.range (["A", "B", "A", "A", "B"] : List String).length).filter
          (fun g => (["A", "B", "A", "A", "B"] : List String).getD g "" == "A")).map
        (fun g => (l.getD g (0, 0)).1) =
        List.range ((["A", "B", "A", "A", "B"] : List String).count "A")) :=
  ⟨by decide, local_ranks_dense_per_node.1 _ (by decide) "A"⟩

/-- C1: the node ranks computed by `get_local_ranks` are NOT a dense
zero-based first-seen index over the distinct node identities: the second
`node_ip_map` loop overwrites repeated identities, so each worker's node rank
is the global index of the last worker sharing its node identity.  For
identities `[A, B, A, A, B]` the code yields node ranks `[3, 4, 3, 3, 4]`,
not the `[0, 1, 0, 0, 1]` the specification states. -/
theorem node_ranks_not_first_seen_dense :
    get_local_ranks ["A", "B", "A", "A", "B"] =
      some [(0, 3), (0, 4), (1, 3), (2, 3), (1, 4)] ∧
    ([(0, 3), (0, 4), (1, 3), (2, 3), (1, 4)] : List (Nat × Nat)).map Prod.snd ≠
      [0, 1, 0, 0, 1] := by decide

/-- C6 counterexample: `get_local_ranks` does not reject the empty input; it
succeeds and returns the empty mapping (no exception path is taken). -/
theorem get_local_ranks_empty_succeeds : get_local_ranks [] = some [] := by decide

/-- C6 (amended): `get_local_ranks` is a pure function with no failure mode at
all: on every input, the empty one included, it succeeds and returns one
`(local_rank, node_rank)` pair per worker. -/
theorem get_local_ranks_total (ids : List String) :
    ∃ l, get_local_ranks ids = some l ∧ l.length = ids.length :=
  ⟨_, get_local_ranks_eq ids, by rw [List.length_map, List.length_range]⟩

/-! ### RayExecutor environment primitives and the rendezvous broadcast -/

/-- A process environment (`os.environ` / `os.getenv`): a mapping from
variable names to optionally present values.  `setenv` is a plain
`os.environ[k] = v` assignment. -/
def setenv (env : String → Option String) (k v : String) : String → Option String :=
  fun x => if x = k then some v else env x

/-- `RayExecutor.set_env_var`: assigns `key` only when `value is not None`
(`str(value)` is the identity on the string values used here). -/
def set_env_var (env : String → Option String) (key : String) (value : Option String) :
    String → Option String :=
  match value with
  | none => env
  | some v => setenv env key v

/-- `RayExecutor.set_env_vars`: zips keys with values and applies
`set_env_var` pairwise, in order.  The Python `assert len(keys) == len(values)`
holds at the only call site, where `values` is a map over `keys`. -/
def set_env_vars (env : String → Option String) (keys : List String)
    (values : List (Option String)) : String → Option String :=
  (keys.zip values).foldl (fun e kv => set_env_var e kv.1 kv.2) env

/-- A provisioned worker as `_setup_env_vars` sees it: its node identity
(`get_node_ip`), the ephemeral port `find_free_port` reports when executed on
its node, and its process environment. -/
structure EnvWorker where
  node_ip : String
  fresh_port : Nat
  env : String → Option String

/-- `find_free_port`, executed on a worker: binds an ephemeral socket on that
worker's node, reads the assigned port, and releases the bind.  The
node-local bind is modelled by the worker's fresh ephemeral port. -/
def find_free_port (w : EnvWorker) : Nat := w.fresh_port

/-- The four environment variables broadcast at rendezvous. -/
def env_keys : List String :=
  ["PL_GLOBAL_SEED", "PL_TORCH_DISTRIBUTED_BACKEND", "MASTER_ADDR", "MASTER_PORT"]

/-- Applying the broadcast of `_setup_env_vars` to one worker: the worker
receives `set_env_vars(keys, values)` where `values` is the list read once
from the driver environment `denv` (recomputing the pure `env_keys.map denv`
per worker equals computing it once). -/
def broadcast_env (denv : String → Option String) (w : EnvWorker) : EnvWorker :=
  { w with env := set_env_vars w.env env_keys (env_keys.map denv) }

/-- `RayPlugin._setup_env_vars`: queries `self.workers[0]` (IndexError, hence
`none`, on an empty pool) for its node address, runs `find_free_port` on that
same worker, writes both into the driver environment, reads the four
`env_keys` values back from the driver environment, and broadcasts that one
value list to every worker with `set_env_vars`. -/
def _setup_env_vars (driver_env : String → Option String) (workers : List EnvWorker) :
    Option ((String → Option String) × List EnvWorker) :=
  match workers.get? 0 with
  | none => none
  | some w0 =>
    let denv := setenv (setenv driver_env "MASTER_ADDR" w0.node_ip)
      "MASTER_PORT" (toString (find_free_port w0))
    some (denv, workers.map (broadcast_env denv))

theorem setenv_self (env : String → Option String) (k v : String) :
    setenv env k v k = some v := by
  show (if k = k then some v else env k) = some v
  rw [if_pos rfl]

theorem setenv_other (env : String → Option String) (k v x : String)
    (h : x ≠ k) : setenv env k v x = env x := by
  show (if x = k then some v else env x) = env x
  rw [if_neg h]

theorem set_env_var_ne (env : String → Option String) (key : String)
    (value : Option String) {k : String} (h : k ≠ key) :
    set_env_var env key value k = env k := by
  cases value with
  | none => rfl
  | some v => exact setenv_other env key v k h

theorem broadcast_env_env (denv : String → Option String) (w : EnvWorker) :
    (broadcast_env denv w).env = set_env_vars w.env env_keys (env_keys.map denv) := rfl

theorem set_env_vars_not_mem (env : String → Option String) {k : String} :
    ∀ (keys : List String) (values : List (Option String)), k ∉ keys →
    set_env_vars env keys values k = env k := by
  intro keys
  induction keys generalizing env with
  | nil => intro values _; rfl
  | cons a ks ih =>
    intro values hk
    cases values with
    | nil =>
      show (List.foldl _ env ((a :: ks).zip [])) k = env k
      rw [List.zip_nil_right]
      rfl
    | cons v vs =>
      have hka : k ≠ a := fun he => hk (he ▸ List.mem_cons_self a ks)
      have hks : k ∉ ks := fun hm => hk (List.mem_cons_of_mem a hm)
      show set_env_vars (set_env_var env a v) ks vs k = env k
      rw [ih (set_env_var env a v) vs hks]
      exact set_env_var_ne env a v hka

theorem set_env_vars_map_lookup (denv : String → Option String) :
    ∀ (keys : List String) (env : String → Option String) {k : String} {v : String},
    keys.Nodup → k ∈ keys → denv k = some v →
    set_env_vars env keys (keys.map denv) k = some v := by
  intro keys
  induction keys with
  | nil =>
    intro env k v _ hk
    cases hk
  | cons a ks ih =>
    intro env k v hnd hk hv
    show set_env_vars (set_env_var env a (denv a)) ks (ks.map denv) k = some v
    rcases List.mem_cons.mp hk with rfl | hk'
    · have ha : k ∉ ks := (List.nodup_cons.mp hnd).1
      rw [set_env_vars_not_mem _ ks _ ha, hv]
      exact setenv_self env k v
    · exact ih _ (List.nodup_cons.mp hnd).2 hk' hv

theorem set_env_vars_map_skip (denv : String → Option String) :
    ∀ (keys : List String) (env : String → Option String) {k : String},
    denv k = none → set_env_vars env keys (keys.map denv) k = env k := by
  intro keys
  induction keys with
  | nil =>
    intro env k _
    rfl
  | cons a ks ih =>
    intro env k hk
    show set_env_vars (set_env_var env a (denv a)) ks (ks.map denv) k = env k
    rw [ih _ hk]
    by_cases hka : k = a
    · subst hka
      rw [hk]
      rfl
    · exact set_env_var_ne env a (denv a) hka

/-- C7: during rendezvous the address and the freshly bound-and-released port
are both obtained from the global-rank-0 worker itself (`find_free_port` runs
on `self.workers[0]`, not on the driver), and the one value list read from
the driver environment is broadcast unchanged to every worker: afterwards
every worker's environment carries the identical rendezvous endpoint, and
each of the four values present on the driver is received identically by
every worker. -/
theorem rendezvous_from_leader_and_identical (driver_env : String → Option String)
    (workers : List EnvWorker) (w0 : EnvWorker) (h0 : workers.get? 0 = some w0) :
    ∃ denv workers', _setup_env_vars driver_env workers = some (denv, workers') ∧
      denv "MASTER_ADDR" = some w0.node_ip ∧
      denv "MASTER_PORT" = some (toString (find_free_port w0)) ∧
      (∀ w' ∈ workers', w'.env "MASTER_ADDR" = some w0.node_ip ∧
        w'.env "MASTER_PORT" = some (toString (find_free_port w0))) ∧
      (∀ k ∈ env_keys, ∀ v, denv k = some v → ∀ w' ∈ workers', w'.env k = some v) := by
  have hnd : env_keys.Nodup := by decide
  have haddr : (setenv (setenv driver_env "MASTER_ADDR" w0.node_ip) "MASTER_PORT"
      (toString (find_free_port w0))) "MASTER_ADDR" = some w0.node_ip :=
    (setenv_other _ _ _ _ (by decide)).trans (setenv_self _ _ _)
  have hport : (setenv (setenv driver_env "MASTER_ADDR" w0.node_ip) "MASTER_PORT"
      (toString (find_free_port w0))) "MASTER_PORT" = some (toString (find_free_port w0)) :=
    setenv_self _ _ _
  refine ⟨setenv (setenv driver_env "MASTER_ADDR" w0.node_ip) "MASTER_PORT"
      (toString (find_free_port w0)),
    workers.map (broadcast_env (setenv (setenv driver_env "MASTER_ADDR" w0.node_ip)
      "MASTER_PORT" (toString (find_free_port w0)))), ?_, haddr, hport, ?_, ?_⟩
  · unfold _setup_env_vars
    rw [h0]
  · intro w' hw'
    rcases List.mem_map.mp hw' with ⟨w, _, rfl⟩
    rw [broadcast_env_env]
    exact ⟨set_env_vars_map_lookup _ env_keys w.env hnd (by decide) haddr,
      set_env_vars_map_lookup _ env_keys w.env hnd (by decide) hport⟩
  · intro k hk v hv w' hw'
    rcases List.mem_map.mp hw' with ⟨w, _, rfl⟩
    rw [broadcast_env_env]
    exact set_env_vars_map_lookup _ env_keys w.env hnd hk hv

/-- A sample driver environment and worker pool for the rendezvous
witnesses. -/
def sample_driver_env : String → Option String := fun _ => none

def sample_worker0 : EnvWorker :=
  { node_ip := "10.0.0.1", fresh_port := 4000, env := fun _ => none }

def sample_worker1 : EnvWorker :=
  { node_ip := "10.0.0.2", fresh_port := 5000, env := fun _ => none }

/-- Witness for `rendezvous_from_leader_and_identical` on a two-worker
pool. -/
theorem rendezvous_from_leader_and_identical_witness :
    ([sample_worker0, sample_worker1].get? 0 = some sample_worker0) ∧
    (∃ denv workers',
      _setup_env_vars sample_driver_env [sample_worker0, sample_worker1] =
        some (denv, workers') ∧
      denv "MASTER_ADDR" = some sample_worker0.node_ip ∧
      denv "MASTER_PORT" = some (toString (find_free_port sample_worker0)) ∧
      (∀ w' ∈ workers', w'.env "MASTER_ADDR" = some sample_worker0.node_ip ∧
        w'.env "MASTER_PORT" = some (toString (find_free_port sample_worker0))) ∧
      (∀ k ∈ env_keys, ∀ v, denv k = some v → ∀ w' ∈ workers', w'.env k = some v)) :=
  ⟨rfl, rendezvous_from_leader_and_identical sample_driver_env _ _ rfl⟩

/-- C9: `set_env_var` with a `None` value leaves the worker's environment
mapping completely unchanged, and consequently any variable whose value is
absent from the driver environment after the endpoint writes (for example an
unset `PL_GLOBAL_SEED`) is silently skipped by the rendezvous broadcast:
every worker's environment is left untouched at that key. -/
theorem set_env_var_none_skips :
    (∀ (env : String → Option String) (key : String), set_env_var env key none = env) ∧
    (∀ (driver_env : String → Option String) (workers : List EnvWorker)
        (denv : String → Option String) (workers' : List EnvWorker),
      _setup_env_vars driver_env workers = some (denv, workers') →
      ∀ k, denv k = none →
      ∀ i w w', workers.get? i = some w → workers'.get? i = some w' →
        w'.env k = w.env k) := by
  constructor
  · intro env key
    rfl
  · intro driver_env workers denv workers' hsetup k hnone i w w' hw hw'
    cases h0 : workers.get? 0 with
    | none =>
      unfold _setup_env_vars at hsetup
      rw [h0] at hsetup
      cases hsetup
    | some w0 =>
      have hs2 : _setup_env_vars driver_env workers = some
          (setenv (setenv driver_env "MASTER_ADDR" w0.node_ip) "MASTER_PORT"
            (toString (find_free_port w0)),
           workers.map (broadcast_env (setenv (setenv driver_env "MASTER_ADDR"
             w0.node_ip) "MASTER_PORT" (toString (find_free_port w0))))) := by
        unfold _setup_env_vars
        rw [h0]
      rw [hs2] at hsetup
      have hpair := Option.some.inj hsetup
      rw [Prod.mk.injEq] at hpair
      obtain ⟨hdenv, hws⟩ := hpair
      rw [← hws] at hw'
      rw [List.get?_eq_getElem?, List.getElem?_map] at hw'
      rw [List.get?_eq_getElem?] at hw
      rw [hw] at hw'
      have hw2 := Option.some.inj hw'
      rw [← hw2, broadcast_env_env]
      apply set_env_vars_map_skip
      rw [hdenv]
      exact hnone

/-- A worker whose environment has a pre-existing seed value, for the
broadcast-skip witness. -/
def sample_worker2 : EnvWorker :=
  { node_ip := "10.0.0.3", fresh_port := 6000,
    env := fun k => if k = "PL_GLOBAL_SEED" then some "7" else none }

/-- The driver environment after the endpoint writes of
`_setup_env_vars sample_driver_env [sample_worker2]`. -/
def sample_denv : String → Option String :=
  setenv (setenv sample_driver_env "MASTER_ADDR" "10.0.0.3") "MASTER_PORT" (toString 6000)

/-- The worker pool after the broadcast of
`_setup_env_vars sample_driver_env [sample_worker2]`. -/
def sample_pool' : List EnvWorker := [sample_worker2].map (broadcast_env sample_denv)

/-- `sample_worker2` after the broadcast. -/
def sample_worker2' : EnvWorker := broadcast_env sample_denv sample_worker2

/-- Witness for `set_env_var_none_skips`: the driver has no seed set, and the
broadcast leaves the worker's pre-existing seed entry untouched. -/
theorem set_env_var_none_skips_witness :
    (sample_denv "PL_GLOBAL_SEED" = none) ∧
    sample_worker2'.env "PL_GLOBAL_SEED" = sample_worker2.env "PL_GLOBAL_SEED" :=
  ⟨rfl, set_env_var_none_skips.2 sample_driver_env [sample_worker2] sample_denv
    sample_pool' rfl "PL_GLOBAL_SEED" rfl 0 sample_worker2 sample_worker2' rfl rfl⟩

/-! ### WorkerPool teardown: `RayPlugin.post_dispatch` -/

/-- A live worker handle at teardown time.  `shutdown_result` is the outcome
of the remote `shutdown_remote` call for this worker: `none` models the call
raising (the actor is dead or unreachable, or `destroy_process_group`
raised). -/
structure TeardownWorker where
  shutdown_result : Option Unit
deriving DecidableEq

/-- `ray.get` applied to a list of futures: returns every value, or raises
(`none`) as soon as any future carries a failure. -/
def ray_get {α : Type} : List (Option α) → Option (List α)
  | [] => some []
  | f :: fs =>
    match f, ray_get fs with
    | some v, some vs => some (v :: vs)
    | _, _ => none

/-- The observable outcome of `post_dispatch`: whether it re-raised, and the
final content of `self.workers`. -/
structure TeardownOutcome where
  raised : Bool
  workers : List TeardownWorker
deriving DecidableEq

/-- `RayPlugin.post_dispatch`: `ray.get` on the list of `shutdown_remote`
futures — with no try/except around it — then `ray.kill(w, no_restart=True)`
for every worker (`ray.kill` on a live or dead actor does not raise), then
`self.workers = []`.  If the `ray.get` raises, the exception propagates out
of `post_dispatch` and the worker list is left untouched. -/
def post_dispatch (workers : List TeardownWorker) : TeardownOutcome :=
  match ray_get (workers.map (fun w => w.shutdown_result)) with
  | none => { raised := true, workers := workers }
  | some _ => { raised := false, workers := [] }

theorem ray_get_none_cons {α : Type} (fs : List (Option α)) :
    ray_get (none :: fs) = none := rfl

theorem ray_get_some_cons {α : Type} (v : α) (fs : List (Option α)) :
    ray_get (some v :: fs) = (ray_get fs).map (fun vs => v :: vs) := by
  show (match some v, ray_get fs with
    | some v, some vs => some (v :: vs)
    | _, _ => none) = (ray_get fs).map (fun vs => v :: vs)
  cases h : ray_get fs with
  | none => rfl
  | some vs => rfl

theorem ray_get_isSome_iff {α : Type} :
    ∀ fs : List (Option α), (ray_get fs).isSome = true ↔ ∀ f ∈ fs, f.isSome = true := by
  intro fs
  induction fs with
  | nil =>
    constructor
    · intro _ f hf
      cases hf
    · intro _
      rfl
  | cons f fs ih =>
    cases f with
    | none =>
      rw [ray_get_none_cons]
      constructor
      · intro h
        cases h
      · intro hall
        cases hall none (List.mem_cons_self none fs)
    | some v =>
      rw [ray_get_some_cons, Option.isSome_map']
      constructor
      · intro h g hg
        rcases List.mem_cons.mp hg with rfl | hg'
        · rfl
        · exact ih.mp h g hg'
      · intro hall
        exact ih.mpr (fun g hg => hall g (List.mem_cons_of_mem _ hg))

/-- C3 counterexample: with one worker whose remote shutdown call fails,
`post_dispatch` re-raises (there is no exception handling around `ray.get`),
no worker is terminated, and the pool's worker list is left non-empty —
contradicting the claim that teardown never re-raises and always completes
with an empty list. -/
theorem post_dispatch_reraises_on_failed_shutdown :
    (post_dispatch [{ shutdown_result := none }]).raised = true ∧
    (post_dispatch [{ shutdown_result := none }]).workers ≠ [] := by decide

/-- C3 (amended): `post_dispatch` terminates the workers and clears the
worker list exactly when every worker's remote shutdown call succeeds; if any
shutdown call fails, the exception is re-raised out of `post_dispatch` and
the worker list is left unchanged. -/
theorem post_dispatch_clears_iff_shutdowns_succeed (ws : List TeardownWorker) :
    ((post_dispatch ws).raised = false ↔ ∀ w ∈ ws, w.shutdown_result.isSome = true) ∧
    ((∀ w ∈ ws, w.shutdown_result.isSome = true) → (post_dispatch ws).workers = []) ∧
    (¬ (∀ w ∈ ws, w.shutdown_result.isSome = true) → (post_dispatch ws).workers = ws) := by
  have hkey : (ray_get (ws.map (fun w => w.shutdown_result))).isSome = true ↔
      ∀ w ∈ ws, w.shutdown_result.isSome = true := by
    rw [ray_get_isSome_iff]
    constructor
    · intro h w hw
      exact h _ (List.mem_map_of_mem _ hw)
    · intro h f hf
      rcases List.mem_map.mp hf with ⟨w, hw, rfl⟩
      exact h w hw
  cases hr : ray_get (ws.map (fun w => w.shutdown_result)) with
  | none =>
    have hpost : post_dispatch ws = { raised := true, workers := ws } := by
      unfold post_dispatch
      rw [hr]
    have hnall : ¬ ∀ w ∈ ws, w.shutdown_result.isSome = true := by
      intro hall
      have h := hkey.mpr hall
      rw [hr] at h
      cases h
    refine ⟨?_, ?_, ?_⟩
    · rw [hpost]
      constructor
      · intro h
        cases h
      · intro hall
        exact absurd hall hnall
    · intro hall
      exact absurd hall hnall
    · intro _
      rw [hpost]
  | some vs =>
    have hpost : post_dispatch ws = { raised := false, workers := [] } := by
      unfold post_dispatch
      rw [hr]
    have hall : ∀ w ∈ ws, w.shutdown_result.isSome = true := by
      apply hkey.mp
      rw [hr]
      rfl
    refine ⟨?_, ?_, ?_⟩
    · rw [hpost]
      exact ⟨fun _ => hall, fun _ => rfl⟩
    · intro _
      rw [hpost]
    · intro hn
      exact absurd hall hn

/-- Witness for `post_dispatch_clears_iff_shutdowns_succeed`: one worker
whose shutdown succeeds; the list is cleared. -/
theorem post_dispatch_clears_iff_shutdowns_succeed_witness :
    (∀ w ∈ [({ shutdown_result := some () } : TeardownWorker)],
      w.shutdown_result.isSome = true) ∧
    (post_dispatch [{ shutdown_result := some () }]).workers = [] :=
  ⟨by decide, (post_dispatch_clears_iff_shutdowns_succeed _).2.1 (by decide)⟩

/-! ### ExecutionCoordinator: the result-collection tail of `execution_loop`

The per-worker return values are the envelopes produced by `execute_remote`:
`None` from every non-leader worker, and on rank 0 the tuple
`(results, best_model_path, model_state_stream, callback_metrics)`, with
component types kept opaque (`ρ`, `π`, `σ`, `μ`; the decoded model state has
type `δ`). -/

/-- The driver-side state that the tail of `execution_loop` mutates:
`self._results`, the model state restored via `load_state_dict`, the
checkpoint callback's `best_model_path`, and the trainer's
`callback_metrics`. -/
structure DriverState (ρ π σ μ δ : Type) where
  _results : Option ρ
  model_state : Option δ
  best_model_path : Option π
  callback_metrics : Option μ
deriving DecidableEq

/-- Modelled from the spec: `process_results` (in `ray_lightning.util`, which
is not part of this module) polls the progress queue for metric batches until
every worker future has resolved and then returns the per-worker results in
worker order; the draining has no effect on the returned result list. -/
def process_results {ρ π σ μ : Type} (worker_returns : List (Option (ρ × π × σ × μ))) :
    List (Option (ρ × π × σ × μ)) := worker_returns

/-- The tail of `RayPlugin.execution_loop` once all futures have resolved,
given the per-worker return values and the state-blob decoder `decode`
(`load_state_stream`, an external codec applied to the leader's
`model_state_stream`).  `results[0]` raises IndexError on an empty list and
unpacking a `None` envelope raises TypeError; both are `none`.  On success
the leader's envelope is unpacked into the driver state and the function
falls off its end: its Python return value is `None`, modelled by the
`none : Option ρ` in the second component. -/
def execution_loop {ρ π σ μ δ : Type} (decode : σ → δ) (st : DriverState ρ π σ μ δ)
    (worker_returns : List (Option (ρ × π × σ × μ))) :
    Option (DriverState ρ π σ μ δ × Option ρ) :=
  match (process_results worker_returns).get? 0 with
  | some (some (r, b, s, m)) =>
      some ({ st with _results := some r,
                      model_state := some (decode s),
                      best_model_path := some b,
                      callback_metrics := some m }, none)
  | some none => none
  | none => none

/-- `RayPlugin.start_training`: runs the execution loop and returns its
value.  (The optimizer reset on the driver-side trainer is outside the
modelled state.) -/
def start_training {ρ π σ μ δ : Type} (decode : σ → δ) (st : DriverState ρ π σ μ δ)
    (worker_returns : List (Option (ρ × π × σ × μ))) :
    Option (DriverState ρ π σ μ δ × Option ρ) :=
  execution_loop decode st worker_returns

/-- `RayPlugin.start_evaluating`: runs the execution loop and returns its
value. -/
def start_evaluating {ρ π σ μ δ : Type} (decode : σ → δ) (st : DriverState ρ π σ μ δ)
    (worker_returns : List (Option (ρ × π × σ × μ))) :
    Option (DriverState ρ π σ μ δ × Option ρ) :=
  execution_loop decode st worker_returns

/-- `RayPlugin.start_predicting`: runs the execution loop and returns its
value. -/
def start_predicting {ρ π σ μ δ : Type} (decode : σ → δ) (st : DriverState ρ π σ μ δ)
    (worker_returns : List (Option (ρ × π × σ × μ))) :
    Option (DriverState ρ π σ μ δ × Option ρ) :=
  execution_loop decode st worker_returns

theorem execution_loop_eq {ρ π σ μ δ : Type} (decode : σ → δ) (st : DriverState ρ π σ μ δ)
    (worker_returns : List (Option (ρ × π × σ × μ))) :
    execution_loop decode st worker_returns =
      match worker_returns.get? 0 with
      | some (some (r, b, s, m)) =>
          some ({ st with _results := some r,
                          model_state := some (decode s),
                          best_model_path := some b,
                          callback_metrics := some m }, none)
      | some none => none
      | none => none := rfl

/-- The driver state before a run, with nothing restored yet. -/
def empty_driver_state : DriverState Nat Nat Nat Nat Nat :=
  { _results := none, model_state := none, best_model_path := none,
    callback_metrics := none }

/-- C2 counterexample: a result list holding two non-empty envelopes is not
rejected: `execution_loop` succeeds, silently using the envelope at index 0
and ignoring the other, instead of raising a protocol violation. -/
theorem execution_loop_accepts_two_envelopes :
    ((([some (1, 2, 3, 4), some (5, 6, 7, 8)] :
        List (Option (Nat × Nat × Nat × Nat))).countP (fun e => e.isSome)) = 2) ∧
    execution_loop (fun s => s) empty_driver_state
        [some (1, 2, 3, 4), some (5, 6, 7, 8)] =
      some ({ _results := some 1, model_state := some 3, best_model_path := some 2,
              callback_metrics := some 4 }, none) :=
  ⟨rfl, rfl⟩

/-- C2 (amended): after all futures resolve the coordinator consults only the
envelope at index 0 (global rank 0): it raises exactly when the result list
is empty or the rank-0 envelope is empty, and otherwise succeeds regardless
of what the remaining workers returned — extra non-empty envelopes are
ignored, not rejected. -/
theorem execution_loop_uses_only_rank_zero {ρ π σ μ δ : Type} (decode : σ → δ)
    (st : DriverState ρ π σ μ δ) :
    (∀ worker_returns : List (Option (ρ × π × σ × μ)),
      (execution_loop decode st worker_returns = none ↔
        (worker_returns.get? 0 = none ∨ worker_returns.get? 0 = some none))) ∧
    (∀ (env : Option (ρ × π × σ × μ)) (rest rest' : List (Option (ρ × π × σ × μ))),
      execution_loop decode st (env :: rest) = execution_loop decode st (env :: rest')) := by
  constructor
  · intro wr
    cases h0 : wr.get? 0 with
    | none =>
      rw [execution_loop_eq, h0]
      exact ⟨fun _ => Or.inl rfl, fun _ => rfl⟩
    | some env =>
      cases env with
      | none =>
        rw [execution_loop_eq, h0]
        exact ⟨fun _ => Or.inr rfl, fun _ => rfl⟩
      | some q =>
        obtain ⟨r, b, s, m⟩ := q
        rw [execution_loop_eq, h0]
        constructor
        · intro h
          exact Option.noConfusion h
        · intro h
          rcases h with h | h
          · exact Option.noConfusion h
          · exact Option.noConfusion (Option.some.inj h)
  · intro env rest rest'
    cases env with
    | none => rfl
    | some q =>
      obtain ⟨r, b, s, m⟩ := q
      rfl

/-- C4: on a successful run `execution_loop` unwraps the rank-0 worker's
envelope and decodes its state blob into the driver state (`_results`, the
model state, the checkpoint path and the metrics are all restored from the
leader's envelope), but the function body has no return statement: the value
handed back — and hence the return value of `start_training`,
`start_evaluating` and `start_predicting` — is `None`, not the leader's
result, contradicting the claim and the function's own docstring
("Finally retrieve the training results from the rank 0 worker and
return."). -/
theorem start_training_returns_none :
    (start_training (fun s : Nat => s) empty_driver_state [some (1, 2, 3, 4)] =
      some ({ _results := some 1, model_state := some 3, best_model_path := some 2,
              callback_metrics := some 4 }, (none : Option Nat))) ∧
    (start_evaluating (fun s : Nat => s) empty_driver_state [some (1, 2, 3, 4)] =
      some ({ _results := some 1, model_state := some 3, best_model_path := some 2,
              callback_metrics := some 4 }, (none : Option Nat))) ∧
    (start_predicting (fun s : Nat => s) empty_driver_state [some (1, 2, 3, 4)] =
      some ({ _results := some 1, model_state := some 3, best_model_path := some 2,
              callback_metrics := some 4 }, (none : Option Nat))) ∧
    (∀ r : Nat, (none : Option Nat) ≠ some r) :=
  ⟨rfl, rfl, rfl, fun _ h => Option.noConfusion h⟩

/-! ### RayPlugin state, rank adoption, and the remote execution entry -/

/-- The fields of `RayPlugin.__dict__` assigned in `__init__`, plus
`global_to_local`, which `execution_loop` assigns before dispatch (so it is
present on the plugin copy each remote worker receives).  The worker handles
and the init hook are opaque (`ω`, `ι`). -/
structure RayPlugin (ι ω : Type) where
  _is_remote : Bool
  nickname : String
  num_workers : Nat
  num_cpus_per_worker : Nat
  use_gpu : Bool
  workers : List ω
  init_hook : ι
  _local_rank : Nat
  _global_rank : Nat
  _node_rank : Nat
  global_to_local : List (Nat × Nat)
deriving DecidableEq

/-- The `global_rank` property. -/
def RayPlugin.global_rank {ι ω : Type} (p : RayPlugin ι ω) : Nat := p._global_rank

/-- The `local_rank` property. -/
def RayPlugin.local_rank {ι ω : Type} (p : RayPlugin ι ω) : Nat := p._local_rank

/-- The `node_rank` property. -/
def RayPlugin.node_rank {ι ω : Type} (p : RayPlugin ι ω) : Nat := p._node_rank

/-- `RayPlugin.set_world_ranks`: on the driver (`_is_remote = False`) a
no-op; on a remote worker it first sets `_global_rank := process_idx` and
then reads `self.global_to_local[self.global_rank]` (an IndexError — `none` —
when that list is too short) into `_local_rank` and `_node_rank`. -/
def set_world_ranks {ι ω : Type} (p : RayPlugin ι ω) (process_idx : Nat) :
    Option (RayPlugin ι ω) :=
  if p._is_remote then
    (({ p with _global_rank := process_idx } : RayPlugin ι ω).global_to_local.get?
      ({ p with _global_rank := process_idx } : RayPlugin ι ω).global_rank).map
      (fun ln => { p with _global_rank := process_idx,
                          _local_rank := ln.1, _node_rank := ln.2 })
  else some p

/-- `RayPlugin._worker_setup`: the seed reset, `rank_zero_only.rank`
assignment and torch.distributed process-group initialisation are external
effects; the plugin-state change is `set_world_ranks`. -/
def _worker_setup {ι ω : Type} (p : RayPlugin ι ω) (process_idx : Nat) :
    Option (RayPlugin ι ω) :=
  set_world_ranks p process_idx

/-- `RayPlugin.execute_remote` running on one worker.  The trainer plumbing,
data preparation, session initialisation, device placement, DDP wrapping, the
barrier and `run_stage` are external effects; `run_results`,
`best_model_path`, `model_state_stream` (built by `to_state_stream`) and
`callback_metrics` are the opaque values the run produces on this worker.
The function sets `_is_remote = True`, adopts the passed global rank via
`_worker_setup`, and returns the filled four-tuple envelope when
`self.global_rank == 0` and `None` otherwise. -/
def execute_remote {ι ω ρ π σ μ : Type} (p : RayPlugin ι ω) (global_rank : Nat)
    (run_results : ρ) (best_model_path : π) (model_state_stream : σ)
    (callback_metrics : μ) : Option (RayPlugin ι ω × Option (ρ × π × σ × μ)) :=
  (_worker_setup ({ p with _is_remote := true }) global_rank).map (fun p2 =>
    (p2, if p2.global_rank = 0
         then some (run_results, best_model_path, model_state_stream, callback_metrics)
         else none))

/-- C8: a worker's `execute_remote` returns a filled envelope (results,
checkpoint path, state blob, metrics) if and only if its global rank is 0:
the returned envelope is `some` of the four-tuple exactly when
`global_rank = 0` and `None` for every other rank, and the plugin adopts the
passed global rank. -/
theorem set_world_ranks_remote {ι ω : Type} (p : RayPlugin ι ω) (g : Nat)
    (hrem : p._is_remote = true) {ln : Nat × Nat}
    (hln : p.global_to_local.get? g = some ln) :
    set_world_ranks p g =
      some { p with _global_rank := g, _local_rank := ln.1, _node_rank := ln.2 } := by
  unfold set_world_ranks
  rw [if_pos hrem]
  show (p.global_to_local.get? g).map _ = _
  rw [hln]
  rfl

theorem execute_remote_leader_envelope {ι ω ρ π σ μ : Type} (p : RayPlugin ι ω)
    (global_rank : Nat) (r : ρ) (b : π) (s : σ) (m : μ)
    (h : global_rank < p.global_to_local.length) :
    ∃ p2, execute_remote p global_rank r b s m =
        some (p2, if global_rank = 0 then some (r, b, s, m) else none) ∧
      p2.global_rank = global_rank := by
  have hln : p.global_to_local.get? global_rank =
      some (p.global_to_local.get ⟨global_rank, h⟩) := List.get?_eq_get h
  refine ⟨{ p with _is_remote := true, _global_rank := global_rank, _local_rank := (p.global_to_local.get ⟨global_rank, h⟩).1, _node_rank := (p.global_to_local.get ⟨global_rank, h⟩).2 }, ?_, rfl⟩
  unfold execute_remote _worker_setup
  rw [set_world_ranks_remote ({ p with _is_remote := true }) global_rank rfl hln]
  rfl

/-- A concrete plugin as built by `__init__` on a two-worker pool, with
`global_to_local` assigned. -/
def sample_plugin : RayPlugin Nat Nat :=
  { _is_remote := false, nickname := "ddp_ray", num_workers := 2,
    num_cpus_per_worker := 1, use_gpu := false, workers := [], init_hook := 0,
    _local_rank := 0, _global_rank := 0, _node_rank := 0,
    global_to_local := [(0, 0), (0, 1)] }

/-- Witness for `execute_remote_leader_envelope` at rank 0 of
`sample_plugin`. -/
theorem execute_remote_leader_envelope_witness :
    (0 < sample_plugin.global_to_local.length) ∧
    (∃ p2, execute_remote sample_plugin 0 (1 : Nat) (2 : Nat) (3 : Nat) (4 : Nat) =
        some (p2, if 0 = 0 then some (1, 2, 3, 4) else none) ∧
      p2.global_rank = 0) :=
  ⟨by decide, execute_remote_leader_envelope sample_plugin 0 1 2 3 4 (by decide)⟩

/-! ### Serialization: `__getstate__` / `__setstate__` -/

/-- The dict returned by `__getstate__`: `self.__dict__` with the `workers`
entry deleted. -/
structure RayPluginSnapshot (ι : Type) where
  _is_remote : Bool
  nickname : String
  num_workers : Nat
  num_cpus_per_worker : Nat
  use_gpu : Bool
  init_hook : ι
  _local_rank : Nat
  _global_rank : Nat
  _node_rank : Nat
  global_to_local : List (Nat × Nat)

/-- `RayPlugin.__getstate__`: copy the dict and delete `workers`. -/
def __getstate__ {ι ω : Type} (p : RayPlugin ι ω) : RayPluginSnapshot ι :=
  { _is_remote := p._is_remote, nickname := p.nickname, num_workers := p.num_workers,
    num_cpus_per_worker := p.num_cpus_per_worker, use_gpu := p.use_gpu,
    init_hook := p.init_hook, _local_rank := p._local_rank,
    _global_rank := p._global_rank, _node_rank := p._node_rank,
    global_to_local := p.global_to_local }

/-- `RayPlugin.__setstate__`: set `d["workers"] = []` and install `d` as the
object's dict. -/
def __setstate__ {ι ω : Type} (d : RayPluginSnapshot ι) : RayPlugin ι ω :=
  { _is_remote := d._is_remote, nickname := d.nickname, num_workers := d.num_workers,
    num_cpus_per_worker := d.num_cpus_per_worker, use_gpu := d.use_gpu,
    workers := [], init_hook := d.init_hook, _local_rank := d._local_rank,
    _global_rank := d._global_rank, _node_rank := d._node_rank,
    global_to_local := d.global_to_local }

/-- C10: the serialization round-trip `__setstate__(__getstate__(p))`
produces a plugin whose `workers` list is empty and whose every other field
equals the corresponding field of `p`: live worker handles never cross a
serialization boundary. -/
theorem serialization_roundtrip_drops_workers {ι ω : Type} (p : RayPlugin ι ω) :
    (__setstate__ (__getstate__ p) : RayPlugin ι ω).workers = ([] : List ω) ∧
    (__setstate__ (__getstate__ p) : RayPlugin ι ω)._is_remote = p._is_remote ∧
    (__setstate__ (__getstate__ p) : RayPlugin ι ω).nickname = p.nickname ∧
    (__setstate__ (__getstate__ p) : RayPlugin ι ω).num_workers = p.num_workers ∧
    (__setstate__ (__getstate__ p) : RayPlugin ι ω).num_cpus_per_worker =
      p.num_cpus_per_worker ∧
    (__setstate__ (__getstate__ p) : RayPlugin ι ω).use_gpu = p.use_gpu ∧
    (__setstate__ (__getstate__ p) : RayPlugin ι ω).init_hook = p.init_hook ∧
    (__setstate__ (__getstate__ p) : RayPlugin ι ω)._local_rank = p._local_rank ∧
    (__setstate__ (__getstate__ p) : RayPlugin ι ω)._global_rank = p._global_rank ∧
    (__setstate__ (__getstate__ p) : RayPlugin ι ω)._node_rank = p._node_rank ∧
    (__setstate__ (__getstate__ p) : RayPlugin ι ω).global_to_local =
      p.global_to_local :=
  ⟨rfl, rfl, rfl, rfl, rfl, rfl, rfl, rfl, rfl, rfl, rfl⟩

end RayDDP
